import Mathlib

/-
Verification of the response decoding pipeline of the linebot client library
(package linebot, file response.go), together with a spec-modelled view of the
message serialization layer exercised by send_message_test.go.

Modelling conventions:
- Go machine integers that occur here (HTTP status codes) are small and never
  overflow, so they are embedded as Nat.
- encoding/json is an external collaborator.  A parsed JSON document is the
  inductive type Json below; an HTTP body is carried both as its raw byte
  content (a String) and as the result of parsing its first JSON value
  (an Option Json, none when the body is not valid JSON).  The Go semantics of
  json.Decoder.Decode into the concrete target structs of response.go is
  reproduced by the decode* functions below: object keys are processed in
  order, later duplicates overwrite earlier ones, unknown keys are ignored,
  key matching is ASCII-case-insensitive, JSON null leaves a string field
  unchanged and sets a slice field to nil, and any type mismatch on a known
  field aborts the decode with an error.
- mime.ParseMediaType and http.Header.Get are external collaborators and are
  modelled by parseMediaType and headerGet below, faithful to their behaviour
  on Content-Disposition values: the media type is the (trimmed, lowercased)
  segment before the first semicolon and must be a non-empty token; each
  further semicolon-separated segment must be a key=value parameter with a
  non-empty token key (lowercased), values optionally double-quoted; duplicate
  parameter names are an error; a missing header yields the empty string,
  which fails to parse.
- Go functions returning (pointer, error) pairs always return exactly one of
  the two non-nil here, so they are embedded as Except.
-/

namespace linebot

/-- A parsed JSON document, as produced by encoding/json.  Object fields and
array elements keep the order in which they occur in the body; numbers keep
their decimal source text, which is all these decoders ever need. -/
inductive Json where
  | null
  | bool (b : Bool)
  | num (lit : String)
  | str (s : String)
  | arr (elems : List Json)
  | obj (fields : List (String × Json))

/-- BasicResponse type (response.go line 11). -/
structure BasicResponse where
  RequestID : String
deriving DecidableEq, Repr

/-- errorResponseDetail type (response.go line 15). -/
structure errorResponseDetail where
  Message : String
  Property : String
deriving DecidableEq, Repr

/-- ErrorResponse type (response.go line 21). -/
structure ErrorResponse where
  RequestID : String
  Message : String
  Details : List errorResponseDetail
deriving DecidableEq, Repr

/-- UserProfileResponse type (response.go line 28); the PicutureURL spelling
is the source's. -/
structure UserProfileResponse where
  RequestID : String
  UserID : String
  DisplayName : String
  PicutureURL : String
  StatusMessage : String
deriving DecidableEq, Repr

/-- MessageContentResponse type (response.go line 37).  The io.ReadCloser
Content is embedded as the raw byte content of the stream handed over. -/
structure MessageContentResponse where
  Content : String
  FileName : String
deriving DecidableEq, Repr

/-- APIError type: Code is the HTTP status code, Response the parsed error
body when it decoded, none otherwise. -/
structure APIError where
  Code : Nat
  Response : Option ErrorResponse
deriving DecidableEq, Repr

/-- The error side of each decoder: an APIError, a plain JSON decode error
from the 200 branch, or a mime.ParseMediaType failure.  The latter two are
the plain (non-APIError) errors response.go returns verbatim. -/
inductive Err where
  | api (e : APIError)
  | jsonDecode
  | mimeParse
deriving DecidableEq, Repr

/-- An HTTP response as the decoders see it: status code, headers, the raw
body stream content, and the encoding/json parse of the body's first JSON
value (none when the body is not valid JSON, e.g. empty or malformed). -/
structure HttpResponse where
  statusCode : Nat
  headers : List (String × String)
  body : String
  bodyJson : Option Json

/-- Lowercase one ASCII letter, the case folding Go applies to JSON keys,
media types and header names. -/
def lowerChar (c : Char) : Char :=
  if 65 ≤ c.toNat && c.toNat ≤ 90 then Char.ofNat (c.toNat + 32) else c

/-- ASCII-lowercase a string. -/
def lowerString (s : String) : String :=
  String.mk (s.toList.map lowerChar)

/-- http.Header.Get: case-insensitive lookup of the first value of a header,
empty string when absent. -/
def headerGet (hs : List (String × String)) (k : String) : String :=
  match hs.find? (fun p => lowerString p.1 == lowerString k) with
  | some p => p.2
  | none => ""

/-- Go json decode of a JSON value into a string field holding cur: a JSON
string replaces it, null leaves it unchanged, anything else is a type error. -/
def asString (cur : String) : Json → Option String
  | Json.str s => some s
  | Json.null => some cur
  | _ => none

/-- Go json decode of a JSON value into one errorResponseDetail: fold the
object's fields in order, matching keys case-insensitively against the
message and property tags; null decodes to the zero value. -/
def decodeDetailFields : errorResponseDetail → List (String × Json) → Option errorResponseDetail
  | d, [] => some d
  | d, (k, v) :: rest =>
    if lowerString k == "message" then
      match asString d.Message v with
      | some s => decodeDetailFields ⟨s, d.Property⟩ rest
      | none => none
    else if lowerString k == "property" then
      match asString d.Property v with
      | some s => decodeDetailFields ⟨d.Message, s⟩ rest
      | none => none
    else decodeDetailFields d rest

/-- Go json decode of one JSON value into errorResponseDetail. -/
def decodeDetail : Json → Option errorResponseDetail
  | Json.obj fs => decodeDetailFields ⟨"", ""⟩ fs
  | Json.null => some ⟨"", ""⟩
  | _ => none

/-- Go json decode of a JSON array's elements into a detail slice, element by
element in order; any element failure aborts the whole decode. -/
def decodeDetailList : List Json → Option (List errorResponseDetail)
  | [] => some []
  | j :: rest =>
    match decodeDetail j, decodeDetailList rest with
    | some d, some ds => some (d :: ds)
    | _, _ => none

/-- Go json decode of a JSON value into the details slice field: an array
decodes elementwise, null sets the slice to nil, anything else is an error. -/
def decodeDetails : Json → Option (List errorResponseDetail)
  | Json.arr es => decodeDetailList es
  | Json.null => some []
  | _ => none

/-- Fold of an object's fields into an ErrorResponse, keys processed in body
order, matched case-insensitively against the requestId, message and details
tags; unknown keys are ignored, later duplicates overwrite. -/
def decodeErrorFields : ErrorResponse → List (String × Json) → Option ErrorResponse
  | r, [] => some r
  | r, (k, v) :: rest =>
    if lowerString k == "requestid" then
      match asString r.RequestID v with
      | some s => decodeErrorFields ⟨s, r.Message, r.Details⟩ rest
      | none => none
    else if lowerString k == "message" then
      match asString r.Message v with
      | some s => decodeErrorFields ⟨r.RequestID, s, r.Details⟩ rest
      | none => none
    else if lowerString k == "details" then
      match decodeDetails v with
      | some ds => decodeErrorFields ⟨r.RequestID, r.Message, ds⟩ rest
      | none => none
    else decodeErrorFields r rest

/-- decoder.Decode into an ErrorResponse zero value: none is a body that is
not valid JSON (Decode returns a syntax error or io.EOF); a JSON object is
folded field by field; null leaves the zero value; any other JSON shape is a
type error. -/
def decodeErrorResponse : Option Json → Option ErrorResponse
  | none => none
  | some (Json.obj fs) => decodeErrorFields ⟨"", "", []⟩ fs
  | some Json.null => some ⟨"", "", []⟩
  | some _ => none

/-- Fold of an object's fields into a BasicResponse. -/
def decodeBasicFields : BasicResponse → List (String × Json) → Option BasicResponse
  | r, [] => some r
  | r, (k, v) :: rest =>
    if lowerString k == "requestid" then
      match asString r.RequestID v with
      | some s => decodeBasicFields ⟨s⟩ rest
      | none => none
    else decodeBasicFields r rest

/-- decoder.Decode into a BasicResponse zero value. -/
def decodeBasicResponse : Option Json → Option BasicResponse
  | none => none
  | some (Json.obj fs) => decodeBasicFields ⟨""⟩ fs
  | some Json.null => some ⟨""⟩
  | some _ => none

/-- Fold of an object's fields into a UserProfileResponse, matched against
the requestId, userId, displayName, pictureUrl and statusMessage tags. -/
def decodeProfileFields : UserProfileResponse → List (String × Json) → Option UserProfileResponse
  | r, [] => some r
  | r, (k, v) :: rest =>
    if lowerString k == "requestid" then
      match asString r.RequestID v with
      | some s => decodeProfileFields ⟨s, r.UserID, r.DisplayName, r.PicutureURL, r.StatusMessage⟩ rest
      | none => none
    else if lowerString k == "userid" then
      match asString r.UserID v with
      | some s => decodeProfileFields ⟨r.RequestID, s, r.DisplayName, r.PicutureURL, r.StatusMessage⟩ rest
      | none => none
    else if lowerString k == "displayname" then
      match asString r.DisplayName v with
      | some s => decodeProfileFields ⟨r.RequestID, r.UserID, s, r.PicutureURL, r.StatusMessage⟩ rest
      | none => none
    else if lowerString k == "pictureurl" then
      match asString r.PicutureURL v with
      | some s => decodeProfileFields ⟨r.RequestID, r.UserID, r.DisplayName, s, r.StatusMessage⟩ rest
      | none => none
    else if lowerString k == "statusmessage" then
      match asString r.StatusMessage v with
      | some s => decodeProfileFields ⟨r.RequestID, r.UserID, r.DisplayName, r.PicutureURL, s⟩ rest
      | none => none
    else decodeProfileFields r rest

/-- decoder.Decode into a UserProfileResponse zero value. -/
def decodeUserProfileResponse : Option Json → Option UserProfileResponse
  | none => none
  | some (Json.obj fs) => decodeProfileFields ⟨"", "", "", "", ""⟩ fs
  | some Json.null => some ⟨"", "", "", "", ""⟩
  | some _ => none

/-- True of ASCII whitespace, as Go strips it around media type segments. -/
def isSpaceChar (c : Char) : Bool :=
  c == ' ' || c == Char.ofNat 9 || c == Char.ofNat 10 || c == Char.ofNat 13

/-- Trim leading and trailing whitespace from a character list. -/
def trimChars (l : List Char) : List Char :=
  ((l.dropWhile isSpaceChar).reverse.dropWhile isSpaceChar).reverse

/-- Split a character list at every occurrence of the separator; as for Go's
strings.Split, the result has one more group than there are separators. -/
def splitOnChar (sep : Char) : List Char → List (List Char)
  | [] => [[]]
  | c :: rest =>
    match splitOnChar sep rest with
    | [] => [[c]]
    | g :: gs =>
      if c == sep then [] :: g :: gs else (c :: g) :: gs

/-- True of characters allowed in a media type or token by the mime package:
ASCII letters and digits and the RFC 1521 token specials (the apostrophe and
backquote written via their character codes), plus the subtype slash. -/
def tokenChar (c : Char) : Bool :=
  c.isAlphanum || "!#$%&*+-.^_|~/".toList.contains c ||
    c == Char.ofNat 39 || c == Char.ofNat 96

/-- Strip one pair of surrounding double quotes from a parameter value, as
the mime package does for quoted-string values. -/
def unquoteValue (v : List Char) : List Char :=
  if decide (2 ≤ v.length) && v.head? == some '"' && v.getLast? == some '"' then
    (v.drop 1).dropLast
  else v

/-- Parse one semicolon-separated attribute=value segment of a media type:
the key is the trimmed, lowercased text before the first equals sign and must
be non-empty; everything after it is the value, unquoted if quoted.  A
segment without an equals sign or with an empty key is an error. -/
def parseParam (s : List Char) : Option (String × String) :=
  match splitOnChar '=' (trimChars s) with
  | k :: v :: vs =>
    let key := (trimChars k).map lowerChar
    if key.isEmpty then none
    else some (String.mk key, String.mk (unquoteValue (List.intercalate [Char.ofNat 61] (v :: vs))))
  | _ => none

/-- Parse each parameter segment in order; any failure aborts. -/
def parseParamList : List (List Char) → Option (List (String × String))
  | [] => some []
  | s :: rest =>
    match parseParam s, parseParamList rest with
    | some p, some ps => some (p :: ps)
    | _, _ => none

/-- True when no parameter name occurs twice, as the mime package rejects
duplicate parameter names. -/
def dupFreeKeys : List (String × String) → Bool
  | [] => true
  | p :: rest => !(rest.any (fun q => q.1 == p.1)) && dupFreeKeys rest

/-- mime.ParseMediaType: the segment before the first semicolon, trimmed and
lowercased, is the media type and must be a non-empty token string; the
remaining segments are attribute=value parameters; a duplicate parameter name
is an error.  The empty string (a missing header) has no media type and is an
error. -/
def parseMediaType (v : String) : Option (String × List (String × String)) :=
  match splitOnChar ';' v.toList with
  | [] => none
  | base :: rest =>
    let mt := (trimChars base).map lowerChar
    if mt.isEmpty then none
    else if !(mt.all tokenChar) then none
    else
      match parseParamList rest with
      | none => none
      | some ps =>
        if dupFreeKeys ps then some (mt.asString, ps) else none

/-- Go map indexing params[k] with the string zero value for a missing key. -/
def lookupParam (ps : List (String × String)) (k : String) : String :=
  match ps.find? (fun p => p.1 == k) with
  | some p => p.2
  | none => ""

/-- decodeToBasicResponse (response.go lines 42-61): non-200 responses yield
an APIError carrying the status code and the best-effort parse of the body as
an ErrorResponse; 200 responses decode the body as a BasicResponse, a failure
there being returned as the plain decode error. -/
def decodeToBasicResponse (res : HttpResponse) : Except Err BasicResponse :=
  if res.statusCode ≠ 200 then
    match decodeErrorResponse res.bodyJson with
    | none => Except.error (Err.api ⟨res.statusCode, none⟩)
    | some result => Except.error (Err.api ⟨res.statusCode, some result⟩)
  else
    match decodeBasicResponse res.bodyJson with
    | none => Except.error Err.jsonDecode
    | some result => Except.ok result

/-- decodeToUserProfileResponse (response.go lines 63-82): same shape as
decodeToBasicResponse with a UserProfileResponse success body. -/
def decodeToUserProfileResponse (res : HttpResponse) : Except Err UserProfileResponse :=
  if res.statusCode ≠ 200 then
    match decodeErrorResponse res.bodyJson with
    | none => Except.error (Err.api ⟨res.statusCode, none⟩)
    | some result => Except.error (Err.api ⟨res.statusCode, some result⟩)
  else
    match decodeUserProfileResponse res.bodyJson with
    | none => Except.error Err.jsonDecode
    | some result => Except.ok result

/-- decodeToMessageContentResponse (response.go lines 84-107): the non-200
branch is identical to the other decoders; on 200 the Content-Disposition
header is parsed as a media type, a parse failure being returned as the plain
mime error, and otherwise the body stream is handed over together with the
filename parameter (empty when absent). -/
def decodeToMessageContentResponse (res : HttpResponse) : Except Err MessageContentResponse :=
  if res.statusCode ≠ 200 then
    match decodeErrorResponse res.bodyJson with
    | none => Except.error (Err.api ⟨res.statusCode, none⟩)
    | some result => Except.error (Err.api ⟨res.statusCode, some result⟩)
  else
    match parseMediaType (headerGet res.headers "Content-Disposition") with
    | none => Except.error Err.mimeParse
    | some mp => Except.ok ⟨res.body, lookupParam mp.2 "filename"⟩

/-- Modelled from the spec: the Message model (NewTextMessage, NewImageMessage,
NewLocationMessage, NewStickerMessage) is not under src/, only its tests; the
spec describes a closed set of variants, each immutable once constructed.
Latitude and longitude are carried as their decimal wire representation, the
byte form the conformance tests assert. -/
inductive Message where
  | text (text : String)
  | image (originalContentUrl previewImageUrl : String)
  | location (title address latitude longitude : String)
  | sticker (packageId stickerId : String)

/-- The type discriminator string naming each variant. -/
def messageTypeName : Message → String
  | Message.text _ => "text"
  | Message.image _ _ => "image"
  | Message.location _ _ _ _ => "location"
  | Message.sticker _ _ => "sticker"

/-- One hexadecimal digit. -/
def hexDigit (n : Nat) : Char :=
  if n < 10 then Char.ofNat (48 + n) else Char.ofNat (87 + n)

/-- Modelled from the spec: JSON string escaping as Go's encoding/json default
encoder performs it (quote, backslash, the HTML-sensitive characters, and
control characters). -/
def escapeChar (c : Char) : String :=
  if c = '"' then "\\\""
  else if c = '\\' then "\\\\"
  else if c = '<' then "\\u003c"
  else if c = '>' then "\\u003e"
  else if c = '&' then "\\u0026"
  else if c = Char.ofNat 10 then "\\n"
  else if c = Char.ofNat 13 then "\\r"
  else if c = Char.ofNat 9 then "\\t"
  else if c.toNat < 32 then
    "\\u00" ++ String.singleton (hexDigit (c.toNat / 16)) ++ String.singleton (hexDigit (c.toNat % 16))
  else String.singleton c

/-- A JSON string literal: surrounding quotes around the escaped content. -/
def jsonQuote (s : String) : String :=
  "\"" ++ String.join (s.toList.map escapeChar) ++ "\""

/-- Modelled from the spec: each variant serializes to a flat JSON object whose
first key is the fixed type discriminator, followed by its own fields in a
fixed, stable order with the platform's exact casing.  Each entry pairs a key
with its already-rendered JSON value. -/
def msgFields : Message → List (String × String)
  | Message.text t =>
    [("type", jsonQuote "text"), ("text", jsonQuote t)]
  | Message.image o p =>
    [("type", jsonQuote "image"), ("originalContentUrl", jsonQuote o), ("previewImageUrl", jsonQuote p)]
  | Message.location t a la lo =>
    [("type", jsonQuote "location"), ("title", jsonQuote t), ("address", jsonQuote a),
      ("latitude", la), ("longitude", lo)]
  | Message.sticker p s =>
    [("type", jsonQuote "sticker"), ("packageId", jsonQuote p), ("stickerId", jsonQuote s)]

/-- Render a list of key/rendered-value pairs as one flat JSON object. -/
def renderObj (fs : List (String × String)) : String :=
  "\x7b" ++ String.intercalate "," (fs.map (fun f => jsonQuote f.1 ++ ":" ++ f.2)) ++ "\x7d"

/-- Serialize one message. -/
def serializeMessage (m : Message) : String :=
  renderObj (msgFields m)

/-- Modelled from the spec: the push envelope wraps the target user id and the
ordered message list; the encoder appends a trailing newline after the
serialized body. -/
def pushEnvelope (toUserID : String) (ms : List Message) : String :=
  "\x7b\"to\":" ++ jsonQuote toUserID ++ ",\"messages\":[" ++
    String.intercalate "," (ms.map serializeMessage) ++ "]\x7d\n"

/-- Modelled from the spec: the reply envelope wraps the reply token and the
ordered message list the same way. -/
def replyEnvelope (token : String) (ms : List Message) : String :=
  "\x7b\"replyToken\":" ++ jsonQuote token ++ ",\"messages\":[" ++
    String.intercalate "," (ms.map serializeMessage) ++ "]\x7d\n"

/-- Elementwise reading of a successful detail-list decode: the resulting
details correspond one to one, in order, with the JSON elements of the body
array they were decoded from. -/
theorem decodeDetailList_forall2 :
    ∀ (l : List Json) (ds : List errorResponseDetail), decodeDetailList l = some ds →
      List.Forall₂ (fun j d => decodeDetail j = some d) l ds := by
  intro l
  induction l with
  | nil =>
    intro ds h
    simp only [decodeDetailList, Option.some.injEq] at h
    subst h
    constructor
  | cons j rest ih =>
    intro ds h
    unfold decodeDetailList at h
    cases h1 : decodeDetail j with
    | none => rw [h1] at h; exact absurd h (by simp)
    | some d =>
      rw [h1] at h
      cases h2 : decodeDetailList rest with
      | none => rw [h2] at h; exact absurd h (by simp)
      | some ds2 =>
        rw [h2] at h
        simp only [Option.some.injEq] at h
        subst h
        exact List.Forall₂.cons h1 (ih ds2 h2)

/-- C1: for every response with a non-200 status code whose body decodes as an
ErrorResponse, each of the three decoders returns no success value and an
APIError whose Code is the response status code and whose Response is the
parsed ErrorResponse; the Details sequence of any successful decode follows
the body array elementwise in order. -/
theorem error_branch_parsed_body (res : HttpResponse) (e : ErrorResponse)
    (hs : res.statusCode ≠ 200)
    (hd : decodeErrorResponse res.bodyJson = some e) :
    decodeToBasicResponse res = Except.error (Err.api ⟨res.statusCode, some e⟩) ∧
    decodeToUserProfileResponse res = Except.error (Err.api ⟨res.statusCode, some e⟩) ∧
    decodeToMessageContentResponse res = Except.error (Err.api ⟨res.statusCode, some e⟩) ∧
    ∀ l ds, decodeDetailList l = some ds →
      List.Forall₂ (fun j d => decodeDetail j = some d) l ds := by
  refine ⟨?_, ?_, ?_, decodeDetailList_forall2⟩
  · unfold decodeToBasicResponse
    rw [if_pos hs, hd]
  · unfold decodeToUserProfileResponse
    rw [if_pos hs, hd]
  · unfold decodeToMessageContentResponse
    rw [if_pos hs, hd]

/-- The 400 error body asserted by TestPushMessages: a message and two details
in a fixed order. -/
def errBody400 : Json :=
  Json.obj [("message", Json.str "Request body has 2 error(s)."),
    ("details", Json.arr
      [Json.obj [("message", Json.str "may not be empty"), ("property", Json.str "messages[0].text")],
       Json.obj [("message", Json.str "may not be empty"), ("property", Json.str "messages[1].text")]])]

/-- Witness for C1 at the 400 response of TestPushMessages: the decoder yields
the APIError of the test expectation, details in body order. -/
theorem error_branch_parsed_body_witness :
    decodeToBasicResponse ⟨400, [], "", some errBody400⟩ =
      Except.error (Err.api ⟨400, some ⟨"", "Request body has 2 error(s).",
        [⟨"may not be empty", "messages[0].text"⟩,
         ⟨"may not be empty", "messages[1].text"⟩]⟩⟩) :=
  (error_branch_parsed_body ⟨400, [], "", some errBody400⟩
    ⟨"", "Request body has 2 error(s).",
      [⟨"may not be empty", "messages[0].text"⟩,
       ⟨"may not be empty", "messages[1].text"⟩]⟩
    (by decide) (by decide)).1

/-- C2: for every response with a non-200 status code whose body does not
decode as an ErrorResponse, each decoder returns an APIError carrying the
status code with Response nil; the decode failure is not returned as any
separate error. -/
theorem error_branch_unparsed_body (res : HttpResponse)
    (hs : res.statusCode ≠ 200)
    (hd : decodeErrorResponse res.bodyJson = none) :
    decodeToBasicResponse res = Except.error (Err.api ⟨res.statusCode, none⟩) ∧
    decodeToUserProfileResponse res = Except.error (Err.api ⟨res.statusCode, none⟩) ∧
    decodeToMessageContentResponse res = Except.error (Err.api ⟨res.statusCode, none⟩) := by
  refine ⟨?_, ?_, ?_⟩
  · unfold decodeToBasicResponse
    rw [if_pos hs, hd]
  · unfold decodeToUserProfileResponse
    rw [if_pos hs, hd]
  · unfold decodeToMessageContentResponse
    rw [if_pos hs, hd]

/-- Witness for C2 at a 400 response with a non-JSON body. -/
theorem error_branch_unparsed_body_witness :
    decodeToBasicResponse ⟨400, [], "not json", none⟩ =
      Except.error (Err.api ⟨400, none⟩) :=
  (error_branch_unparsed_body ⟨400, [], "not json", none⟩ (by decide) rfl).1

/-- C3: for every 200 response, each decoder whose own expected success
shape the body fails to decode as returns the plain decode error, which is
never an APIError value; the decoders are covered independently, a body may
fail one shape while decoding as the other. -/
theorem success_branch_decode_failure (res : HttpResponse)
    (hs : res.statusCode = 200) :
    (decodeBasicResponse res.bodyJson = none →
      decodeToBasicResponse res = Except.error Err.jsonDecode) ∧
    (decodeUserProfileResponse res.bodyJson = none →
      decodeToUserProfileResponse res = Except.error Err.jsonDecode) ∧
    ∀ e : APIError, Err.jsonDecode ≠ Err.api e := by
  have hns : ¬(res.statusCode ≠ 200) := fun h => h hs
  refine ⟨fun hb => ?_, fun hu => ?_, fun e h => Err.noConfusion h⟩
  · unfold decodeToBasicResponse
    rw [if_neg hns, hb]
  · unfold decodeToUserProfileResponse
    rw [if_neg hns, hu]

/-- Witness for C3: a 200 body that is the JSON array [1] fails the basic
shape, and a 200 body with a numeric userId field decodes as a BasicResponse
yet fails the profile shape; in each case the failing decoder returns the
plain decode error. -/
theorem success_branch_decode_failure_witness :
    decodeToBasicResponse ⟨200, [], "[1]", some (Json.arr [Json.num "1"])⟩ =
      Except.error Err.jsonDecode ∧
    decodeToUserProfileResponse
        ⟨200, [], "\x7b\"userId\":5\x7d", some (Json.obj [("userId", Json.num "5")])⟩ =
      Except.error Err.jsonDecode :=
  ⟨(success_branch_decode_failure ⟨200, [], "[1]", some (Json.arr [Json.num "1"])⟩
      rfl).1 rfl,
   (success_branch_decode_failure
      ⟨200, [], "\x7b\"userId\":5\x7d", some (Json.obj [("userId", Json.num "5")])⟩
      rfl).2.1 rfl⟩

/-- C4: every decoder takes the success branch exactly when the status code is
200: any other status code yields an APIError carrying that status code, the
same one across all three decoders, and a 200 response never yields an
APIError. -/
theorem status_code_branching (res : HttpResponse) :
    (res.statusCode ≠ 200 →
      ∃ r, decodeToBasicResponse res = Except.error (Err.api ⟨res.statusCode, r⟩) ∧
        decodeToUserProfileResponse res = Except.error (Err.api ⟨res.statusCode, r⟩) ∧
        decodeToMessageContentResponse res = Except.error (Err.api ⟨res.statusCode, r⟩)) ∧
    (res.statusCode = 200 → ∀ e : APIError,
      decodeToBasicResponse res ≠ Except.error (Err.api e) ∧
      decodeToUserProfileResponse res ≠ Except.error (Err.api e) ∧
      decodeToMessageContentResponse res ≠ Except.error (Err.api e)) := by
  constructor
  · intro hs
    cases hd : decodeErrorResponse res.bodyJson with
    | none =>
      refine ⟨none, ?_, ?_, ?_⟩
      · unfold decodeToBasicResponse; rw [if_pos hs, hd]
      · unfold decodeToUserProfileResponse; rw [if_pos hs, hd]
      · unfold decodeToMessageContentResponse; rw [if_pos hs, hd]
    | some e =>
      refine ⟨some e, ?_, ?_, ?_⟩
      · unfold decodeToBasicResponse; rw [if_pos hs, hd]
      · unfold decodeToUserProfileResponse; rw [if_pos hs, hd]
      · unfold decodeToMessageContentResponse; rw [if_pos hs, hd]
  · intro hs e
    have hns : ¬(res.statusCode ≠ 200) := fun h => h hs
    refine ⟨?_, ?_, ?_⟩
    · unfold decodeToBasicResponse
      rw [if_neg hns]
      cases hb : decodeBasicResponse res.bodyJson <;> simp
    · unfold decodeToUserProfileResponse
      rw [if_neg hns]
      cases hu : decodeUserProfileResponse res.bodyJson <;> simp
    · unfold decodeToMessageContentResponse
      rw [if_neg hns]
      cases hm : parseMediaType (headerGet res.headers "Content-Disposition") <;> simp

/-- Witness for C4 at a 200 response: the decoder result is not an APIError. -/
theorem status_code_branching_witness :
    decodeToBasicResponse ⟨200, [], "", some (Json.obj [])⟩ ≠
      Except.error (Err.api ⟨200, none⟩) :=
  ((status_code_branching ⟨200, [], "", some (Json.obj [])⟩).2 rfl ⟨200, none⟩).1

set_option maxRecDepth 20000 in
/-- C5: every message variant serializes with the type discriminator naming
the variant as the first key of its object, the remaining fields following in
their fixed order; and the push envelope for NewTextMessage of Hello, world
to the test user id is byte-for-byte the body asserted by TestPushMessages,
trailing newline included, as are the image, location and sticker bodies. -/
theorem message_serialization_exact :
    (∀ m : Message, ∃ rest, msgFields m = ("type", jsonQuote (messageTypeName m)) :: rest) ∧
    pushEnvelope "U0cc15697597f61dd8b01cea8b027050e" [Message.text "Hello, world"] =
      "\x7b\"to\":\"U0cc15697597f61dd8b01cea8b027050e\",\"messages\":[\x7b\"type\":\"text\",\"text\":\"Hello, world\"\x7d]\x7d\n" ∧
    pushEnvelope "U0cc15697597f61dd8b01cea8b027050e"
        [Message.image "http://example.com/original.jpg" "http://example.com/preview.jpg"] =
      "\x7b\"to\":\"U0cc15697597f61dd8b01cea8b027050e\",\"messages\":[\x7b\"type\":\"image\",\"originalContentUrl\":\"http://example.com/original.jpg\",\"previewImageUrl\":\"http://example.com/preview.jpg\"\x7d]\x7d\n" ∧
    pushEnvelope "U0cc15697597f61dd8b01cea8b027050e"
        [Message.location "title" "address" "35.65910807942215" "139.70372892916203"] =
      "\x7b\"to\":\"U0cc15697597f61dd8b01cea8b027050e\",\"messages\":[\x7b\"type\":\"location\",\"title\":\"title\",\"address\":\"address\",\"latitude\":35.65910807942215,\"longitude\":139.70372892916203\x7d]\x7d\n" ∧
    pushEnvelope "U0cc15697597f61dd8b01cea8b027050e" [Message.sticker "1" "1"] =
      "\x7b\"to\":\"U0cc15697597f61dd8b01cea8b027050e\",\"messages\":[\x7b\"type\":\"sticker\",\"packageId\":\"1\",\"stickerId\":\"1\"\x7d]\x7d\n" := by
  refine ⟨fun m => ?_, by decide, by decide, by decide, by decide⟩
  cases m <;> exact ⟨_, rfl⟩

/-- C6: for every 200 content response whose Content-Disposition header
parses as a media type with a filename parameter, the content decoder
succeeds with that parameter value as FileName and the raw body stream as
Content, handed over unconsumed. -/
theorem content_filename_extracted (res : HttpResponse) (mt fn : String)
    (ps : List (String × String))
    (hs : res.statusCode = 200)
    (hp : parseMediaType (headerGet res.headers "Content-Disposition") = some (mt, ps))
    (hf : ps.find? (fun p => p.1 == "filename") = some ("filename", fn)) :
    decodeToMessageContentResponse res = Except.ok ⟨res.body, fn⟩ := by
  have hns : ¬(res.statusCode ≠ 200) := fun h => h hs
  unfold decodeToMessageContentResponse
  rw [if_neg hns, hp]
  simp [lookupParam, hf]

/-- Witness for C6 at the spec's example header value. -/
theorem content_filename_extracted_witness :
    decodeToMessageContentResponse
        ⟨200, [("Content-Disposition", "attachment; filename=foo.png")], "PNGBYTES", none⟩ =
      Except.ok ⟨"PNGBYTES", "foo.png"⟩ :=
  content_filename_extracted
    ⟨200, [("Content-Disposition", "attachment; filename=foo.png")], "PNGBYTES", none⟩
    "attachment" "foo.png" [("filename", "foo.png")] rfl (by decide) (by decide)

/-- C7: for every 200 content response whose Content-Disposition header is
missing or does not parse as a media type, the content decoder returns no
MessageContentResponse and the plain mime parse error, which is never an
APIError value. -/
theorem content_disposition_failure (res : HttpResponse)
    (hs : res.statusCode = 200)
    (hp : parseMediaType (headerGet res.headers "Content-Disposition") = none) :
    decodeToMessageContentResponse res = Except.error Err.mimeParse ∧
    ∀ e : APIError, Err.mimeParse ≠ Err.api e := by
  have hns : ¬(res.statusCode ≠ 200) := fun h => h hs
  refine ⟨?_, fun e h => Err.noConfusion h⟩
  unfold decodeToMessageContentResponse
  rw [if_neg hns, hp]

/-- Witness for C7 at a 200 content response with no Content-Disposition
header at all. -/
theorem content_disposition_failure_witness :
    decodeToMessageContentResponse ⟨200, [], "PNGBYTES", none⟩ =
      Except.error Err.mimeParse :=
  (content_disposition_failure ⟨200, [], "PNGBYTES", none⟩ rfl (by decide)).1

/-- C8: a 200 response whose body is the empty JSON object decodes through
decodeToBasicResponse to a BasicResponse with empty RequestID and no error. -/
theorem ok_empty_object_basic :
    decodeToBasicResponse ⟨200, [], "\x7b\x7d", some (Json.obj [])⟩ =
      Except.ok ⟨""⟩ := rfl

/-- C10: for every 200 content response whose Content-Disposition header
parses as a media type with no filename parameter, the content decoder still
succeeds, with the empty string as FileName. -/
theorem content_no_filename_param (res : HttpResponse) (mt : String)
    (ps : List (String × String))
    (hs : res.statusCode = 200)
    (hp : parseMediaType (headerGet res.headers "Content-Disposition") = some (mt, ps))
    (hf : ps.find? (fun p => p.1 == "filename") = none) :
    decodeToMessageContentResponse res = Except.ok ⟨res.body, ""⟩ := by
  have hns : ¬(res.statusCode ≠ 200) := fun h => h hs
  unfold decodeToMessageContentResponse
  rw [if_neg hns, hp]
  simp [lookupParam, hf]

/-- Witness for C10 at a bare attachment disposition with no parameters. -/
theorem content_no_filename_param_witness :
    decodeToMessageContentResponse
        ⟨200, [("Content-Disposition", "attachment")], "PNGBYTES", none⟩ =
      Except.ok ⟨"PNGBYTES", ""⟩ :=
  content_no_filename_param
    ⟨200, [("Content-Disposition", "attachment")], "PNGBYTES", none⟩
    "attachment" [] rfl (by decide) rfl

end linebot
